import Mathlib

/-
Verification of the dosa entity finder (src/finder.go).

The file embeds the data model and the operations of finder.go shallowly:
Go slices become lists, Go maps become association lists with
overwrite-on-insert semantics, the fallible translator returns Except, and
the external collaborators of the package (name normalizer, tag mini-language
parsers, key-name translation, final validity check) are parameters gathered
in a Collaborators structure, since their code is outside finder.go.
-/

set_option maxHeartbeats 1000000

namespace Dosa

/-- Schema type enumeration of the dosa package. Invalid is the sentinel
returned by the type mapper for unknown labels. -/
inductive DosaType where
  | String
  | Blob
  | Bool
  | Int32
  | Int64
  | Double
  | Timestamp
  | TUUID
  | Invalid
  deriving DecidableEq, Repr

/-- Embedding of stringToDosaType (finder.go lines 205-226): the Go switch is
a sequence of case-sensitive exact string comparisons with a default of
Invalid. -/
def stringToDosaType (inType : String) : DosaType :=
  if inType = "string" then DosaType.String
  else if inType = "[]byte" then DosaType.Blob
  else if inType = "bool" then DosaType.Bool
  else if inType = "int32" then DosaType.Int32
  else if inType = "int64" then DosaType.Int64
  else if inType = "float64" then DosaType.Double
  else if inType = "time.Time" then DosaType.Timestamp
  else if inType = "UUID" then DosaType.TUUID
  else DosaType.Invalid

/-- Modelled from the spec: the external key-definition shape parsed out of
the marker tag (spec section 3). It is opaque to finder.go, which only
stores it, so its internal structure is irrelevant here. -/
structure PrimaryKey where
  raw : List String
  deriving DecidableEq, Repr

/-- One mapped field of the schema (spec section 3). finder.go only reads
the Name attribute of the values produced by the external parseField, and
the spec records that the schema type attribute comes from the closed Type
enumeration. -/
structure ColumnDefinition where
  name : String
  typ : DosaType
  deriving DecidableEq, Repr

/-- The Table value assembled by tableFromStructType (the Go structure embeds
an EntityDefinition carrying Name, Key and Columns; it is flattened here).
Go maps are association lists, newest binding first. -/
structure Table where
  structName : String
  name : String
  key : Option PrimaryKey
  columns : List ColumnDefinition
  colToField : List (String × String)
  fieldToCol : List (String × String)
  deriving DecidableEq, Repr

/-- Lookup in a Go map modelled as an association list (newest binding
first); none corresponds to an absent key. -/
def mapGet : List (String × String) → String → Option String
  | [], _ => none
  | p :: m, k => if p.1 = k then some p.2 else mapGet m k

/-- Go map assignment: the new binding shadows and removes any previous
binding of the same key. -/
def mapIns (m : List (String × String)) (k v : String) : List (String × String) :=
  (k, v) :: m.filter (fun p => p.1 ≠ k)

/-- Sequential Go map assignment of a list of bindings, oldest first. The
two mapping tables of a translated entity are exactly such insertion
sequences over the column-to-field pairs and their swaps. -/
def insPairs (m : List (String × String)) (L : List (String × String)) :
    List (String × String) :=
  L.foldl (fun acc p => mapIns acc p.1 p.2) m

/-- Field type expressions of the Go AST, restricted to the shapes finder.go
dispatches on: a plain identifier, an array type, a qualified (selector)
reference, and everything else. -/
inductive TypeExpr where
  | ident (name : String)
  | arrayType (elt : TypeExpr)
  | selectorExpr (x : TypeExpr) (sel : String)
  | other
  deriving DecidableEq, Repr

/-- One field declaration of a Go struct as the AST presents it: the bound
names (empty for an embedded field such as the marker field), the type
expression, and the struct tag already decomposed into the key-value pairs
that reflect.StructTag.Get reads. A parsed Go field tag is always a string
literal, which subsumes the token.STRING kind test of isDosaEntity. -/
structure Field where
  names : List String
  typ : TypeExpr
  tag : Option (List (String × String))
  deriving DecidableEq, Repr

/-- A struct type declaration: its ordered field list. -/
structure StructType where
  fields : List Field
  deriving DecidableEq, Repr

/-- reflect.StructTag.Get: the value bound to a key in a struct tag, with the
empty string for an absent key (first binding wins). -/
def tagGet (tg : List (String × String)) (key : String) : String :=
  match tg.find? (fun p => p.1 = key) with
  | some p => p.2
  | none => ""

/-- Modelled from the spec: the designated marker type name (the global
marker constant of spec section 9; entityName in the dosa package, defined
outside finder.go). -/
def entityName : String := "Entity"

/-- Modelled from the spec: the designated metadata tag key (the global
marker constant of spec section 9; dosaTagKey in the dosa package, defined
outside finder.go). -/
def dosaTagKey : String := "dosa"

/-- Embedding of isDosaEntity (finder.go lines 98-122): reject a struct with
no fields; reject when the first field type is a plain identifier other
than the marker type name; reject when the first field has no tag or its
marker-key value is empty; accept otherwise. -/
def isDosaEntity (structType : StructType) : Bool :=
  match structType.fields with
  | [] => false
  | candidateEntityField :: _ =>
      (match candidateEntityField.typ with
       | TypeExpr.ident name => name = entityName
       | _ => true) &&
      (match candidateEntityField.tag with
       | none => false
       | some tg => !(tagGet tg dosaTagKey = ""))

/-- Modelled from the spec: the external collaborators of finder.go (spec
section 6), whose code lives outside src: the name normalizer, the marker
tag parser (entity name and key structure), the field tag parser building a
ColumnDefinition, the key-name translation step (which resolves key field
references against the finished column list and touches only the key
structure, spec section 4.3 step 4), the final validity checker, and the
host Unicode lower-case test used for the exported-name check. Errors are
modelled by their messages. -/
structure Collaborators where
  normalizeName : String → Except String String
  parseEntityTag : String → String → Except String (String × PrimaryKey)
  parseField : DosaType → String → String → Except String ColumnDefinition
  translateKeyName : Table → Option PrimaryKey
  ensureValid : Table → Option String
  unicodeIsLower : Char → Bool

/-- Embedding of strings.TrimSpace: drop leading and trailing whitespace
from a string. -/
def trimSpace (s : String) : String :=
  ⟨((s.data.dropWhile Char.isWhitespace).reverse.dropWhile
      Char.isWhitespace).reverse⟩

/-- The dosa tag value of a field as tableFromStructType computes it
(finder.go lines 142-146): the marker-key value of the tag, trimmed, with
the empty string when the field has no tag. -/
def fieldDosaTag (f : Field) : String :=
  match f.tag with
  | some tg => trimSpace (tagGet tg dosaTagKey)
  | none => ""

/-- The kind classification of a field type (finder.go lines 150-170): a
plain identifier keeps its name; an array type yields the blob label only
when its element is the byte identifier; a selector yields the time label
only when its qualifier is the time identifier; everything else yields the
empty (unrecognized) label. -/
def classifyKind : TypeExpr → String
  | TypeExpr.ident name => name
  | TypeExpr.arrayType elt =>
      match elt with
      | TypeExpr.ident eltName => if eltName = "byte" then "[]byte" else ""
      | _ => ""
  | TypeExpr.selectorExpr x _ =>
      match x with
      | TypeExpr.ident xName => if xName = "time" then "time.Time" else ""
      | _ => ""
  | TypeExpr.other => ""

/-- The first rune of a field name as utf8.DecodeRuneInString yields it,
with the replacement character for the empty string. -/
def firstRune (s : String) : Char :=
  match s.data with
  | [] => Char.ofNat 0xFFFD
  | ch :: _ => ch

/-- The inner loop of tableFromStructType over the names bound by one
non-marker field (finder.go lines 177-195): skip unexported names; fail on
an Invalid type mapping; otherwise build the column through the external
field-tag parser, append it and register both mapping directions. -/
def processNames (c : Collaborators) (dosaTag kind : String) :
    Table → List String → Except String Table
  | t, [] => Except.ok t
  | t, name :: rest =>
      if c.unicodeIsLower (firstRune name) then
        processNames c dosaTag kind t rest
      else
        let typ := stringToDosaType kind
        if typ = DosaType.Invalid then
          Except.error ("Column \"" ++ name ++ "\" has invalid type \"" ++ kind ++ "\"")
        else
          match c.parseField typ name dosaTag with
          | Except.error e => Except.error ("column \"" ++ name ++ "\": " ++ e)
          | Except.ok cd =>
              processNames c dosaTag kind
                { t with
                  columns := t.columns ++ [cd],
                  colToField := mapIns t.colToField cd.name name,
                  fieldToCol := mapIns t.fieldToCol name cd.name } rest

/-- The body of the field loop of tableFromStructType (finder.go lines
141-197) for one field: skip an explicitly ignored field; on the marker
kind, parse the marker tag and overwrite the entity name and key; otherwise
process the bound names. -/
def processField (c : Collaborators) (structName : String) (t : Table)
    (f : Field) : Except String Table :=
  let dosaTag := fieldDosaTag f
  if dosaTag = "-" then Except.ok t
  else
    let kind := classifyKind f.typ
    if kind = entityName then
      match c.parseEntityTag structName dosaTag with
      | Except.error e => Except.error e
      | Except.ok nk => Except.ok { t with name := nk.1, key := some nk.2 }
    else
      processNames c dosaTag kind t f.names

/-- The field loop of tableFromStructType: fields in declaration order, any
error aborting the whole declaration. -/
def processFields (c : Collaborators) (structName : String) :
    Table → List Field → Except String Table
  | t, [] => Except.ok t
  | t, f :: fs =>
      match processField c structName t f with
      | Except.error e => Except.error e
      | Except.ok t2 => processFields c structName t2 fs

/-- Embedding of tableFromStructType (finder.go lines 125-203): normalize
the declared name, fold the field loop from an empty table, apply the
key-name translation, and run the final validity check. -/
def tableFromStructType (c : Collaborators) (structName : String)
    (structType : StructType) : Except String Table :=
  match c.normalizeName structName with
  | Except.error e => Except.error ("struct name is invalid: " ++ e)
  | Except.ok normalizedName =>
      match processFields c structName
          { structName := structName, name := normalizedName, key := none,
            columns := [], colToField := [], fieldToCol := [] }
          structType.fields with
      | Except.error e => Except.error e
      | Except.ok t =>
          let t2 := { t with key := c.translateKeyName t }
          match c.ensureValid t2 with
          | some e => Except.error ("failed to parse dosa object: " ++ e)
          | none => Except.ok t2

/-- The accumulator of the walker (finder.go lines 66-69): the entities
found so far and the non-fatal warnings. -/
structure EntityRecordingVisitor where
  entities : List Table
  warnings : List String
  deriving DecidableEq, Repr

/-- The nodes of the Go AST the walker distinguishes: the containers it
recurses into (file, declaration group, function declaration, block,
declaration statement), a type specification whose type may or may not be a
struct, and every other node, into which the visitor never descends. -/
inductive GoNode where
  | file (decls : List GoNode)
  | genDecl (specs : List GoNode)
  | funcDecl (body : List GoNode)
  | blockStmt (stmts : List GoNode)
  | declStmt (decl : GoNode)
  | typeSpec (name : String) (structType : Option StructType)
  | otherNode

/-- The TypeSpec case of EntityRecordingVisitor.Visit (finder.go lines
76-87): when the declared type is a struct accepted by the heuristic, a
successful translation appends the table to the entities and a failed one
appends the error to the warnings; everything else leaves the accumulator
unchanged. -/
def visitTypeSpec (c : Collaborators) (st : EntityRecordingVisitor)
    (name : String) (ty : Option StructType) : EntityRecordingVisitor :=
  match ty with
  | some structType =>
      if isDosaEntity structType then
        match tableFromStructType c name structType with
        | Except.ok table => { st with entities := st.entities ++ [table] }
        | Except.error err => { st with warnings := st.warnings ++ [err] }
      else st
  | none => st

mutual
/-- ast.Walk with EntityRecordingVisitor.Visit (finder.go lines 72-90): the
visitor returns itself on the container nodes, so the walk descends into
their children; on a type specification it records the entity or warning
and returns nil, so the walk never descends below it; on every other node
it returns nil. -/
def walk (c : Collaborators) (st : EntityRecordingVisitor) :
    GoNode → EntityRecordingVisitor
  | GoNode.file decls => walkList c st decls
  | GoNode.genDecl specs => walkList c st specs
  | GoNode.funcDecl body => walkList c st body
  | GoNode.blockStmt stmts => walkList c st stmts
  | GoNode.declStmt decl => walk c st decl
  | GoNode.typeSpec name ty => visitTypeSpec c st name ty
  | GoNode.otherNode => st

/-- Sequential walk over the children of a container node, threading the
accumulator left to right. -/
def walkList (c : Collaborators) (st : EntityRecordingVisitor) :
    List GoNode → EntityRecordingVisitor
  | [] => st
  | d :: ds => walkList c (walk c st d) ds
end

/-- The file-selection callback FindEntities hands to the parser (finder.go
lines 42-48): include every file when the exclusion pattern is empty;
otherwise include the file iff the glob matcher reports no match, the
matcher error being discarded. The matcher returns the matched flag and an
optional error, as filepath.Match does. -/
def fileFilter (match' : String → String → Bool × Option String)
    (excludes : String) (name : String) : Bool :=
  if excludes = "" then true
  else !(match' excludes name).1

/-- Embedding of FindEntities (finder.go lines 40-61): the external parser
consumes the file filter and either fails for the whole batch, in which
case FindEntities returns no entities, no warnings and the fatal error, or
yields the declarations, which the walker folds over from an empty
accumulator. -/
def FindEntities (c : Collaborators)
    (match' : String → String → Bool × Option String)
    (parseDir : (String → Bool) → Except String (List GoNode))
    (excludes : String) :
    List Table × List String × Option String :=
  match parseDir (fileFilter match' excludes) with
  | Except.error err => ([], [], some err)
  | Except.ok decls =>
      let erv := walkList c { entities := [], warnings := [] } decls
      (erv.entities, erv.warnings, none)

/-- The finite set of known type labels and their schema types, written down
from the words of the spec (section 4.4 together with the enumeration of
section 3) to be compared with the switch of stringToDosaType. -/
def knownTypeLabels : List (String × DosaType) :=
  [("string", DosaType.String), ("[]byte", DosaType.Blob),
   ("bool", DosaType.Bool), ("int32", DosaType.Int32),
   ("int64", DosaType.Int64), ("float64", DosaType.Double),
   ("time.Time", DosaType.Timestamp), ("UUID", DosaType.TUUID)]

/-- The names a single field contributes columns for: none when the field is
ignored or is a marker field, and otherwise its bound names that are
exported. This restates the skip logic of the field loop to phrase the
mapping-table invariant. -/
def processedNames (c : Collaborators) (f : Field) : List String :=
  if fieldDosaTag f = "-" then []
  else if classifyKind f.typ = entityName then []
  else f.names.filter (fun n => !(c.unicodeIsLower (firstRune n)))

/-- The non-ignored, exported field names of a struct, in processing order. -/
def processedFieldNames (c : Collaborators) (s : StructType) : List String :=
  (s.fields.map (processedNames c)).flatten

/-- A concrete instantiation of the external collaborators, used to evaluate
the embedding on concrete inputs. Modelled from the spec: the normalizer
lower-cases a name that starts with an ASCII letter, the marker tag parser
reads the tag as the entity name and a one-element key, the field tag
parser names the column after the tag when one is given and after the
lower-cased field name otherwise, the key translation keeps the key, and
the validity check requires a key and pairwise distinct column names. -/
def sampleCollab : Collaborators where
  normalizeName := fun s =>
    if (firstRune s).isAlpha then Except.ok ⟨s.data.map Char.toLower⟩
    else Except.error ("invalid name " ++ s)
  parseEntityTag := fun _ tag => Except.ok (tag, ⟨[tag]⟩)
  parseField := fun ty n tag =>
    Except.ok ⟨if tag = "" then ⟨n.data.map Char.toLower⟩ else tag, ty⟩
  translateKeyName := fun t => t.key
  ensureValid := fun t =>
    if t.key = none then some "no key specified"
    else if (t.columns.map ColumnDefinition.name).Nodup then none
    else some "duplicate column name"
  unicodeIsLower := Char.isLower

/-- The marker field of a concrete dosa entity: an embedded field of the
marker type with a non-empty dosa tag. -/
def markerField : Field :=
  { names := [], typ := TypeExpr.ident "Entity",
    tag := some [("dosa", "primaryKey=name")] }

/-- A concrete exported string field without a tag. -/
def nameField : Field :=
  { names := ["Name"], typ := TypeExpr.ident "string", tag := none }

/-- A concrete well-formed entity struct: the marker field and one exported
string field. -/
def goodStruct : StructType :=
  { fields := [markerField, nameField] }

/-- The table the sample collaborators produce for goodStruct. -/
def goodTable : Table :=
  { structName := "MyEnt", name := "primaryKey=name",
    key := some ⟨["primaryKey=name"]⟩,
    columns := [{ name := "name", typ := DosaType.String }],
    colToField := [("name", "Name")], fieldToCol := [("Name", "name")] }

/-- An empty table to seed concrete runs of the field loop. -/
def emptyTable : Table :=
  { structName := "MyEnt", name := "myent", key := none,
    columns := [], colToField := [], fieldToCol := [] }

/-- A concrete field carrying the ignore sentinel as its dosa tag value. -/
def ignoredField : Field :=
  { names := ["Secret"], typ := TypeExpr.ident "string",
    tag := some [("dosa", "-")] }

/-- A concrete struct whose first field has an array type, hence is not of
the marker type, yet carries a non-empty dosa tag. -/
def arrayFirstStruct : StructType :=
  { fields := [{ names := ["B"], typ := TypeExpr.arrayType (TypeExpr.ident "byte"),
                 tag := some [("dosa", "primaryKey=b")] }] }

/-- A concrete struct binding the same exported field name twice, the second
occurrence renaming its column through the tag; the Go parser accepts such
a declaration since it does not type-check it. -/
def dupFieldStruct : StructType :=
  { fields := [markerField,
               { names := ["X"], typ := TypeExpr.ident "string", tag := none },
               { names := ["X"], typ := TypeExpr.ident "string",
                 tag := some [("dosa", "g")] }] }

/-- The table the sample collaborators produce for dupFieldStruct. -/
def dupFieldTable : Table :=
  { structName := "MyEnt", name := "primaryKey=name",
    key := some ⟨["primaryKey=name"]⟩,
    columns := [{ name := "x", typ := DosaType.String },
                { name := "g", typ := DosaType.String }],
    colToField := [("g", "X"), ("x", "X")], fieldToCol := [("X", "g")] }

/-- A second concrete marker field whose tag differs from markerField. -/
def markerField2 : Field :=
  { names := [], typ := TypeExpr.ident "Entity",
    tag := some [("dosa", "primaryKey=id2")] }

/-- C4: the type mapper is a pure total function that maps each label of the
finite known set, by case-sensitive exact string match, to its member of
the Type enumeration, and every label outside that set to Invalid: it
agrees everywhere with lookup in the spec-side label table. -/
theorem stringToDosaType_spec_table (s : String) :
    stringToDosaType s =
      ((knownTypeLabels.find? (fun p => p.1 = s)).map Prod.snd).getD
        DosaType.Invalid := by
  by_cases h1 : s = "string"
  · subst h1; rfl
  by_cases h2 : s = "[]byte"
  · subst h2; rfl
  by_cases h3 : s = "bool"
  · subst h3; rfl
  by_cases h4 : s = "int32"
  · subst h4; rfl
  by_cases h5 : s = "int64"
  · subst h5; rfl
  by_cases h6 : s = "float64"
  · subst h6; rfl
  by_cases h7 : s = "time.Time"
  · subst h7; rfl
  by_cases h8 : s = "UUID"
  · subst h8; rfl
  simp [stringToDosaType, knownTypeLabels, List.find?, h1, h2, h3, h4, h5, h6,
        h7, h8, Ne.symm h1, Ne.symm h2, Ne.symm h3, Ne.symm h4, Ne.symm h5,
        Ne.symm h6, Ne.symm h7, Ne.symm h8]

/-- C6: a field whose dosa tag value is exactly the ignore sentinel
contributes nothing: running the field loop with the ignored field present
gives the very same result, with no error and no change to the table, as
running it without the field, whatever fields surround it. -/
theorem ignored_field_contributes_nothing (c : Collaborators)
    (structName : String) (t : Table) (f : Field) (pre post : List Field)
    (h : fieldDosaTag f = "-") :
    processFields c structName t (pre ++ f :: post) =
      processFields c structName t (pre ++ post) := by
  induction pre generalizing t with
  | nil => simp [processFields, processField, h]
  | cons g gs ih =>
      simp only [List.cons_append, processFields]
      cases processField c structName t g with
      | error e => rfl
      | ok t2 => exact ih t2

/-- C6 witness: the ignored field of a concrete struct contributes no
column, no mapping entry and no warning, while its neighbours translate as
if it were absent. -/
theorem ignored_field_contributes_nothing_witness :
    processFields sampleCollab "MyEnt" emptyTable
        [markerField, ignoredField, nameField] =
      processFields sampleCollab "MyEnt" emptyTable [markerField, nameField] :=
  ignored_field_contributes_nothing sampleCollab "MyEnt" emptyTable
    ignoredField [markerField] [nameField] (by decide)

/-- C7: a bound name whose leading character is lower-case under the host
case test is skipped by the name loop: it yields no column, no mapping
entry and no error, the remaining names being processed unchanged. -/
theorem unexported_name_skipped (c : Collaborators) (dosaTag kind : String)
    (t : Table) (name : String) (rest : List String)
    (h : c.unicodeIsLower (firstRune name) = true) :
    processNames c dosaTag kind t (name :: rest) =
      processNames c dosaTag kind t rest := by
  simp [processNames, h]

/-- C7 witness: a lower-case name is dropped from a concrete name loop. -/
theorem unexported_name_skipped_witness :
    processNames sampleCollab "" "string" emptyTable ["age", "Name"] =
      processNames sampleCollab "" "string" emptyTable ["Name"] :=
  unexported_name_skipped sampleCollab "" "string" emptyTable "age" ["Name"]
    rfl

/-- C8: the translator does not forbid a second marker-type field: its
parsed entity name and key silently overwrite the name and key set by the
earlier marker field, and the declaration still translates without error at
this step. -/
theorem marker_last_write_wins (c : Collaborators) (structName : String)
    (t : Table) (f1 f2 : Field) (n1 n2 : String) (k1 k2 : PrimaryKey)
    (h1k : classifyKind f1.typ = entityName) (h1i : fieldDosaTag f1 ≠ "-")
    (h1p : c.parseEntityTag structName (fieldDosaTag f1) = Except.ok (n1, k1))
    (h2k : classifyKind f2.typ = entityName) (h2i : fieldDosaTag f2 ≠ "-")
    (h2p : c.parseEntityTag structName (fieldDosaTag f2) = Except.ok (n2, k2)) :
    processFields c structName t [f1, f2] =
      Except.ok { t with name := n2, key := some k2 } := by
  simp [processFields, processField, h1k, h1i, h1p, h2k, h2i, h2p]

/-- C8 witness: with two concrete marker fields the resulting name and key
are those parsed from the second tag. -/
theorem marker_last_write_wins_witness :
    processFields sampleCollab "MyEnt" emptyTable [markerField, markerField2] =
      Except.ok
        { emptyTable with
          name := "primaryKey=id2", key := some ⟨["primaryKey=id2"]⟩ } :=
  marker_last_write_wins sampleCollab "MyEnt" emptyTable markerField
    markerField2 "primaryKey=name" "primaryKey=id2" ⟨["primaryKey=name"]⟩
    ⟨["primaryKey=id2"]⟩ rfl (by decide) rfl rfl (by decide) rfl

/-- C9: when the parser reports an error for the source tree, FindEntities
aborts and returns the fatal error with no entities and no warnings. -/
theorem findEntities_fatal (c : Collaborators)
    (match' : String → String → Bool × Option String)
    (parseDir : (String → Bool) → Except String (List GoNode))
    (excludes err : String)
    (h : parseDir (fileFilter match' excludes) = Except.error err) :
    FindEntities c match' parseDir excludes = ([], [], some err) := by
  simp [FindEntities, h]

/-- C9 witness: a concrete failing parser makes FindEntities return the
error and two empty lists. -/
theorem findEntities_fatal_witness :
    FindEntities sampleCollab (fun _ _ => (false, none))
        (fun _ => Except.error "syntax error") "" =
      ([], [], some "syntax error") :=
  findEntities_fatal sampleCollab (fun _ _ => (false, none))
    (fun _ => Except.error "syntax error") "" "syntax error" rfl

/-- C10: a malformed exclusion pattern is harmless: the matcher error is
discarded and, since the matcher reports no match whenever it errors, the
file is included; and a fatal error of FindEntities always comes from the
parser, never from the exclusion glob itself. -/
theorem glob_error_discarded :
    (∀ (match' : String → String → Bool × Option String)
        (excludes name : String),
        (match' excludes name).1 = false →
        fileFilter match' excludes name = true) ∧
    (∀ (c : Collaborators) (match' : String → String → Bool × Option String)
        (parseDir : (String → Bool) → Except String (List GoNode))
        (excludes : String) (es : List Table) (ws : List String)
        (err : String),
        FindEntities c match' parseDir excludes = (es, ws, some err) →
        parseDir (fileFilter match' excludes) = Except.error err) := by
  constructor
  · intro match' excludes name h
    unfold fileFilter
    by_cases he : excludes = ""
    · simp [he]
    · simp [he, h]
  · intro c match' parseDir excludes es ws err h
    unfold FindEntities at h
    cases hp : parseDir (fileFilter match' excludes) with
    | error e => rw [hp] at h; simp at h; rw [h.2.2]
    | ok decls => rw [hp] at h; simp at h

/-- C10 witness: a concrete matcher that errors on its pattern while
reporting no match leaves the file included, and a concrete fatal result
traces back to the parser. -/
theorem glob_error_discarded_witness :
    fileFilter (fun _ _ => (false, some "bad pattern")) "[" "entity.go" = true ∧
    (fun _ : String → Bool => Except.error "boom"
        : (String → Bool) → Except String (List GoNode))
      (fileFilter (fun _ _ => (false, some "bad pattern")) "[") =
      Except.error "boom" :=
  ⟨glob_error_discarded.1 (fun _ _ => (false, some "bad pattern")) "["
      "entity.go" rfl,
   glob_error_discarded.2 sampleCollab (fun _ _ => (false, some "bad pattern"))
      (fun _ => Except.error "boom") "[" [] [] "boom" rfl⟩

/-- C1 counterexample: a struct whose single field is of array type, hence
not of the designated marker type, yet carries a non-empty dosa tag, is
accepted by the heuristic: the identifier test of isDosaEntity only fires
when the first field type is a plain identifier. -/
theorem isDosaEntity_nonident_counterexample :
    arrayFirstStruct.fields.map Field.typ =
      [TypeExpr.arrayType (TypeExpr.ident "byte")] ∧
    TypeExpr.arrayType (TypeExpr.ident "byte") ≠ TypeExpr.ident entityName ∧
    isDosaEntity arrayFirstStruct = true :=
  ⟨rfl, by decide, rfl⟩

/-- C1 amended: the heuristic rejects, and the translator is then never
invoked, for every struct with zero fields, every struct whose first field
type is a plain identifier other than the marker type name, and every
struct whose first field lacks a tag or whose marker-key tag value is
empty; a non-identifier first field type is not itself a reason to
reject. -/
theorem isDosaEntity_rejects (s : StructType)
    (h : s.fields = [] ∨
      (∃ f rest, s.fields = f :: rest ∧
        ((∃ n, f.typ = TypeExpr.ident n ∧ n ≠ entityName) ∨
         f.tag = none ∨
         (∃ tg, f.tag = some tg ∧ tagGet tg dosaTagKey = "")))) :
    isDosaEntity s = false ∧
    ∀ c st name, visitTypeSpec c st name (some s) = st := by
  have hfalse : isDosaEntity s = false := by
    rcases h with h | ⟨f, rest, hf, hcase⟩
    · simp [isDosaEntity, h]
    · rcases hcase with ⟨n, hn, hne⟩ | htag | ⟨tg, htg, hval⟩
      · simp [isDosaEntity, hf, hn, hne]
      · simp [isDosaEntity, hf, htag]
      · simp [isDosaEntity, hf, htg, hval]
  exact ⟨hfalse, fun c st name => by simp [visitTypeSpec, hfalse]⟩

/-- C1 witness: a struct with zero fields is rejected and leaves the
visitor state unchanged. -/
theorem isDosaEntity_rejects_witness :
    isDosaEntity ⟨[]⟩ = false ∧
    visitTypeSpec sampleCollab ⟨[], []⟩ "Foo" (some ⟨[]⟩) = ⟨[], []⟩ :=
  ⟨(isDosaEntity_rejects ⟨[]⟩ (Or.inl rfl)).1,
   (isDosaEntity_rejects ⟨[]⟩ (Or.inl rfl)).2 sampleCollab ⟨[], []⟩ "Foo"⟩

/-- C3: for a candidate declaration, a successful translation appends the
table to the entity list and produces no warning, a failed translation
appends the produced error to the warning list and no entity (the failure
discards the whole declaration, nothing partial being emitted), and the
walk over the remaining declarations continues either way. -/
theorem visit_routes_results (c : Collaborators)
    (st : EntityRecordingVisitor) (name : String) (s : StructType)
    (hacc : isDosaEntity s = true) :
    (∀ t, tableFromStructType c name s = Except.ok t →
        visitTypeSpec c st name (some s) =
          { st with entities := st.entities ++ [t] }) ∧
    (∀ e, tableFromStructType c name s = Except.error e →
        visitTypeSpec c st name (some s) =
          { st with warnings := st.warnings ++ [e] }) ∧
    (∀ d ds, walkList c st (d :: ds) = walkList c (walk c st d) ds) := by
  refine ⟨?_, ?_, ?_⟩
  · intro t ht; simp [visitTypeSpec, hacc, ht]
  · intro e he; simp [visitTypeSpec, hacc, he]
  · intro d ds; rw [walkList]

/-- C3 witness: a concrete accepted declaration that translates
successfully appends exactly its table and no warning. -/
theorem visit_routes_results_witness :
    visitTypeSpec sampleCollab ⟨[], []⟩ "MyEnt" (some goodStruct) =
      ⟨[goodTable], []⟩ := by
  have h := (visit_routes_results sampleCollab ⟨[], []⟩ "MyEnt" goodStruct
    rfl).1 goodTable (by rfl)
  simpa using h

/-- If the name loop succeeds and the external field parser preserves the
schema type it is given, every column of the output table that is not a
column of the input table has the non-Invalid type checked by the loop. -/
theorem processNames_ok_invalid_free (c : Collaborators)
    (hpf : ∀ ty n tg cd, c.parseField ty n tg = Except.ok cd → cd.typ = ty)
    (dosaTag kind : String) :
    ∀ (names : List String) (t t' : Table),
      processNames c dosaTag kind t names = Except.ok t' →
      (∀ cd ∈ t.columns, cd.typ ≠ DosaType.Invalid) →
      ∀ cd ∈ t'.columns, cd.typ ≠ DosaType.Invalid := by
  intro names
  induction names with
  | nil =>
      intro t t' h hinv
      simp only [processNames, Except.ok.injEq] at h
      exact h ▸ hinv
  | cons name rest ih =>
      intro t t' h hinv
      simp only [processNames] at h
      cases hl : c.unicodeIsLower (firstRune name) with
      | true =>
          rw [hl] at h; simp only [if_pos rfl] at h
          exact ih t t' h hinv
      | false =>
          rw [hl] at h
          simp only [Bool.false_eq_true, if_false] at h
          by_cases hk : stringToDosaType kind = DosaType.Invalid
          · rw [if_pos hk] at h; cases h
          · rw [if_neg hk] at h
            cases hp : c.parseField (stringToDosaType kind) name dosaTag with
            | error e => rw [hp] at h; cases h
            | ok cd =>
                rw [hp] at h
                refine ih _ t' h ?_
                intro cd2 hmem
                rcases List.mem_append.mp hmem with hmem | hmem
                · exact hinv cd2 hmem
                · rcases List.mem_singleton.mp hmem with rfl
                  rw [hpf _ _ _ _ hp]
                  exact hk

/-- One step of the field loop preserves freedom from the Invalid sentinel
in the column list, given a type-preserving field parser. -/
theorem processField_ok_invalid_free (c : Collaborators)
    (hpf : ∀ ty n tg cd, c.parseField ty n tg = Except.ok cd → cd.typ = ty)
    (structName : String) (t : Table) (f : Field) (t' : Table)
    (h : processField c structName t f = Except.ok t')
    (hinv : ∀ cd ∈ t.columns, cd.typ ≠ DosaType.Invalid) :
    ∀ cd ∈ t'.columns, cd.typ ≠ DosaType.Invalid := by
  simp only [processField] at h
  by_cases hi : fieldDosaTag f = "-"
  · rw [if_pos hi] at h
    cases h
    exact hinv
  · rw [if_neg hi] at h
    by_cases hk : classifyKind f.typ = entityName
    · rw [if_pos hk] at h
      cases hp : c.parseEntityTag structName (fieldDosaTag f) with
      | error e => rw [hp] at h; cases h
      | ok nk =>
          rw [hp] at h
          cases h
          exact hinv
    · rw [if_neg hk] at h
      exact processNames_ok_invalid_free c hpf _ _ f.names t t' h hinv

/-- The whole field loop preserves freedom from the Invalid sentinel, given
a type-preserving field parser. -/
theorem processFields_ok_invalid_free (c : Collaborators)
    (hpf : ∀ ty n tg cd, c.parseField ty n tg = Except.ok cd → cd.typ = ty)
    (structName : String) :
    ∀ (fs : List Field) (t t' : Table),
      processFields c structName t fs = Except.ok t' →
      (∀ cd ∈ t.columns, cd.typ ≠ DosaType.Invalid) →
      ∀ cd ∈ t'.columns, cd.typ ≠ DosaType.Invalid := by
  intro fs
  induction fs with
  | nil =>
      intro t t' h hinv
      simp only [processFields, Except.ok.injEq] at h
      exact h ▸ hinv
  | cons f fs ih =>
      intro t t' h hinv
      simp only [processFields] at h
      cases hp : processField c structName t f with
      | error e => rw [hp] at h; cases h
      | ok t2 =>
          rw [hp] at h
          exact ih t2 t' h
            (processField_ok_invalid_free c hpf structName t f t2 hp hinv)

/-- C2: with a field parser that gives the column the schema type handed to
it, every column of a successfully translated declaration has a type
different from the Invalid sentinel; and a field whose label maps to
Invalid makes the loop fail with the corresponding error instead of
attaching a column. -/
theorem columns_never_invalid (c : Collaborators)
    (hpf : ∀ ty n tg cd, c.parseField ty n tg = Except.ok cd → cd.typ = ty) :
    (∀ structName s t, tableFromStructType c structName s = Except.ok t →
        ∀ cd ∈ t.columns, cd.typ ≠ DosaType.Invalid) ∧
    (∀ dosaTag kind t name rest,
        stringToDosaType kind = DosaType.Invalid →
        c.unicodeIsLower (firstRune name) = false →
        processNames c dosaTag kind t (name :: rest) =
          Except.error
            ("Column \"" ++ name ++ "\" has invalid type \"" ++ kind ++ "\"")) := by
  constructor
  · intro structName s t h
    cases hn : c.normalizeName structName with
    | error e => simp [tableFromStructType, hn] at h
    | ok nm =>
        cases hf : processFields c structName
            { structName := structName, name := nm, key := none,
              columns := [], colToField := [], fieldToCol := [] }
            s.fields with
        | error e => simp [tableFromStructType, hn, hf] at h
        | ok t1 =>
            cases he : c.ensureValid { t1 with key := c.translateKeyName t1 } with
            | some e => simp [tableFromStructType, hn, hf, he] at h
            | none =>
                simp only [tableFromStructType, hn, hf, he,
                  Except.ok.injEq] at h
                have hcols : t.columns = t1.columns := by rw [← h]
                rw [hcols]
                exact processFields_ok_invalid_free c hpf structName s.fields
                  _ t1 hf (by intro cd hmem; cases hmem)
  · intro dosaTag kind t name rest hkind hlow
    simp [processNames, hlow, hkind]

/-- C2 witness: a concrete exported field with an unknown type label fails
translation with the documented error, through the sample collaborators
whose field parser preserves the type. -/
theorem columns_never_invalid_witness :
    processNames sampleCollab "" "BadType" emptyTable ["Name"] =
      Except.error
        ("Column \"" ++ "Name" ++ "\" has invalid type \"" ++ "BadType" ++ "\"") :=
  (columns_never_invalid sampleCollab
      (fun ty n tg cd h => by cases h; rfl)).2
    "" "BadType" emptyTable "Name" [] rfl rfl

/-- Filtering out the bindings of one key does not change lookups of a
different key. -/
theorem mapGet_filter_ne (m : List (String × String)) (k k' : String)
    (h : k' ≠ k) :
    mapGet (m.filter (fun p => p.1 ≠ k)) k' = mapGet m k' := by
  induction m with
  | nil => rfl
  | cons a m ih =>
      by_cases hak : a.1 = k
      · rw [List.filter_cons_of_neg (by simp [hak])]
        have ha' : ¬(a.1 = k') := fun hc => h (by rw [← hc, hak])
        rw [ih]
        simp only [mapGet]
        rw [if_neg ha']
      · rw [List.filter_cons_of_pos (by simp [hak])]
        simp only [mapGet]
        by_cases ha : a.1 = k'
        · rw [if_pos ha, if_pos ha]
        · rw [if_neg ha, if_neg ha, ih]

/-- Lookup after a Go map assignment: the assigned key reads the new value,
every other key reads as before. -/
theorem mapGet_mapIns (m : List (String × String)) (k v k' : String) :
    mapGet (mapIns m k v) k' = if k' = k then some v else mapGet m k' := by
  by_cases h : k' = k
  · subst h
    simp [mapIns, mapGet]
  · simp only [mapIns, mapGet]
    rw [if_neg (fun hc => h hc.symm), if_neg h, mapGet_filter_ne m k k' h]

/-- Unfolding one insertion of an insertion sequence. -/
theorem insPairs_cons (m : List (String × String)) (p : String × String)
    (L : List (String × String)) :
    insPairs m (p :: L) = insPairs (mapIns m p.1 p.2) L := rfl

/-- A key absent from an insertion sequence reads as in the initial map. -/
theorem mapGet_insPairs_not_mem (L : List (String × String)) :
    ∀ (m : List (String × String)) (k : String), k ∉ L.map Prod.fst →
      mapGet (insPairs m L) k = mapGet m k := by
  induction L with
  | nil => intro m k _; rfl
  | cons p L ih =>
      intro m k h
      simp only [List.map_cons, List.mem_cons, not_or] at h
      rw [insPairs_cons, ih _ k h.2, mapGet_mapIns, if_neg h.1]

/-- When the inserted keys are pairwise distinct, a pair of the sequence is
read back exactly. -/
theorem mapGet_insPairs_mem (L : List (String × String)) :
    (L.map Prod.fst).Nodup → ∀ k v, (k, v) ∈ L →
      ∀ m, mapGet (insPairs m L) k = some v := by
  induction L with
  | nil => intro _ k v hmem; cases hmem
  | cons p L ih =>
      intro hnd k v hmem m
      rcases List.mem_cons.mp hmem with heq | hmem2
      · cases heq
        have hnd' : (k :: L.map Prod.fst).Nodup := by
          simpa only [List.map_cons] using hnd
        have hk : k ∉ L.map Prod.fst := (List.nodup_cons.mp hnd').1
        rw [insPairs_cons, mapGet_insPairs_not_mem L _ k hk, mapGet_mapIns]
        simp
      · obtain ⟨a, b⟩ := p
        have hnd' : (a :: L.map Prod.fst).Nodup := by
          simpa only [List.map_cons] using hnd
        rw [insPairs_cons]
        exact ih (List.nodup_cons.mp hnd').2 k v hmem2 _

/-- Conversely, with pairwise distinct keys, every successful lookup comes
from a pair of the sequence. -/
theorem mem_of_mapGet_insPairs (L : List (String × String))
    (hnd : (L.map Prod.fst).Nodup) (k v : String)
    (h : mapGet (insPairs [] L) k = some v) : (k, v) ∈ L := by
  by_cases hk : k ∈ L.map Prod.fst
  · obtain ⟨p, hp, hp1⟩ := List.mem_map.mp hk
    obtain ⟨a, b⟩ := p
    cases hp1
    have h2 := mapGet_insPairs_mem L hnd a b hp []
    rw [h] at h2
    cases h2
    exact hp
  · rw [mapGet_insPairs_not_mem L [] k hk] at h
    cases h

/-- Membership transport between a pair list and its swap. -/
theorem mem_swap_iff (L : List (String × String)) (cn fn : String) :
    (fn, cn) ∈ L.map Prod.swap ↔ (cn, fn) ∈ L := by
  constructor
  · intro h
    obtain ⟨p, hp, he⟩ := List.mem_map.mp h
    obtain ⟨a, b⟩ := p
    simp only [Prod.swap_prod_mk, Prod.mk.injEq] at he
    rw [← he.1, ← he.2]
    exact hp
  · intro h
    exact List.mem_map.mpr ⟨(cn, fn), h, rfl⟩

/-- Two insertion sequences built from a pair list and its swap are exact
inverses of each other as soon as both coordinate lists are duplicate
free. -/
theorem insPairs_inverse (L : List (String × String))
    (h1 : (L.map Prod.fst).Nodup) (h2 : (L.map Prod.snd).Nodup)
    (cn fn : String) :
    mapGet (insPairs [] L) cn = some fn ↔
      mapGet (insPairs [] (L.map Prod.swap)) fn = some cn := by
  have hswap : ((L.map Prod.swap).map Prod.fst).Nodup := by
    rw [List.map_map]
    simpa [Function.comp] using h2
  constructor
  · intro h
    exact mapGet_insPairs_mem _ hswap fn cn
      ((mem_swap_iff L cn fn).mpr (mem_of_mapGet_insPairs L h1 cn fn h)) []
  · intro h
    exact mapGet_insPairs_mem L h1 cn fn
      ((mem_swap_iff L cn fn).mp (mem_of_mapGet_insPairs _ hswap fn cn h)) []

/-- The name loop only extends the two mapping tables by mirror insertions
of one pair list, whose field coordinates are exactly the exported names
and whose column coordinates are exactly the new column names. -/
theorem processNames_struct (c : Collaborators) (dosaTag kind : String) :
    ∀ (names : List String) (t t' : Table),
      processNames c dosaTag kind t names = Except.ok t' →
      ∃ L : List (String × String),
        t'.colToField = insPairs t.colToField L ∧
        t'.fieldToCol = insPairs t.fieldToCol (L.map Prod.swap) ∧
        t'.columns.map ColumnDefinition.name =
          t.columns.map ColumnDefinition.name ++ L.map Prod.fst ∧
        L.map Prod.snd =
          names.filter (fun n => !(c.unicodeIsLower (firstRune n))) := by
  intro names
  induction names with
  | nil =>
      intro t t' h
      simp only [processNames, Except.ok.injEq] at h
      subst h
      exact ⟨[], rfl, rfl, by simp, by simp⟩
  | cons name rest ih =>
      intro t t' h
      simp only [processNames] at h
      cases hl : c.unicodeIsLower (firstRune name) with
      | true =>
          rw [hl] at h
          simp only [if_pos] at h
          obtain ⟨L, h1, h2, h3, h4⟩ := ih t t' h
          exact ⟨L, h1, h2, h3, by simp [hl, h4]⟩
      | false =>
          rw [hl] at h
          simp only [Bool.false_eq_true, if_false] at h
          by_cases hk : stringToDosaType kind = DosaType.Invalid
          · rw [if_pos hk] at h; cases h
          · rw [if_neg hk] at h
            cases hp : c.parseField (stringToDosaType kind) name dosaTag with
            | error e => rw [hp] at h; cases h
            | ok cd =>
                rw [hp] at h
                obtain ⟨L, h1, h2, h3, h4⟩ := ih _ t' h
                refine ⟨(cd.name, name) :: L, ?_, ?_, ?_, ?_⟩
                · rw [h1]; rfl
                · rw [h2]; rfl
                · rw [h3]; simp
                · simp [hl, h4]

/-- One field extends the two mapping tables by mirror insertions of one
pair list whose field coordinates are its processed names. -/
theorem processField_struct (c : Collaborators) (structName : String)
    (t : Table) (f : Field) (t' : Table)
    (h : processField c structName t f = Except.ok t') :
    ∃ L : List (String × String),
      t'.colToField = insPairs t.colToField L ∧
      t'.fieldToCol = insPairs t.fieldToCol (L.map Prod.swap) ∧
      t'.columns.map ColumnDefinition.name =
        t.columns.map ColumnDefinition.name ++ L.map Prod.fst ∧
      L.map Prod.snd = processedNames c f := by
  simp only [processField] at h
  by_cases hi : fieldDosaTag f = "-"
  · rw [if_pos hi] at h
    cases h
    exact ⟨[], rfl, rfl, by simp, by simp [processedNames, hi]⟩
  · rw [if_neg hi] at h
    by_cases hk : classifyKind f.typ = entityName
    · rw [if_pos hk] at h
      cases hp : c.parseEntityTag structName (fieldDosaTag f) with
      | error e => rw [hp] at h; cases h
      | ok nk =>
          rw [hp] at h
          cases h
          exact ⟨[], rfl, rfl, by simp, by simp [processedNames, hi, hk]⟩
    · rw [if_neg hk] at h
      obtain ⟨L, h1, h2, h3, h4⟩ :=
        processNames_struct c (fieldDosaTag f) (classifyKind f.typ) f.names
          t t' h
      exact ⟨L, h1, h2, h3, by simp [processedNames, hi, hk, h4]⟩

/-- The whole field loop extends the two mapping tables by mirror
insertions of one pair list whose field coordinates are the non-ignored
exported names of the struct. -/
theorem processFields_struct (c : Collaborators) (structName : String) :
    ∀ (fs : List Field) (t t' : Table),
      processFields c structName t fs = Except.ok t' →
      ∃ L : List (String × String),
        t'.colToField = insPairs t.colToField L ∧
        t'.fieldToCol = insPairs t.fieldToCol (L.map Prod.swap) ∧
        t'.columns.map ColumnDefinition.name =
          t.columns.map ColumnDefinition.name ++ L.map Prod.fst ∧
        L.map Prod.snd = (fs.map (processedNames c)).flatten := by
  intro fs
  induction fs with
  | nil =>
      intro t t' h
      simp only [processFields, Except.ok.injEq] at h
      subst h
      exact ⟨[], rfl, rfl, by simp, by simp⟩
  | cons f fs ih =>
      intro t t' h
      simp only [processFields] at h
      cases hp : processField c structName t f with
      | error e => rw [hp] at h; cases h
      | ok t2 =>
          rw [hp] at h
          obtain ⟨L1, a1, a2, a3, a4⟩ := processField_struct c structName t f t2 hp
          obtain ⟨L2, b1, b2, b3, b4⟩ := ih t2 t' h
          refine ⟨L1 ++ L2, ?_, ?_, ?_, ?_⟩
          · rw [b1, a1]; unfold insPairs; rw [List.foldl_append]
          · rw [b2, a2]; unfold insPairs; simp [List.foldl_append]
          · rw [b3, a3]; simp
          · simp [a4, b4]

/-- C5 counterexample: a declaration binding the same exported field name
twice, the second occurrence renaming its column through the tag, still
translates successfully, and in the result the column-to-field table sends
column x to field X while the field-to-column table sends X to g: the two
tables are not inverses of each other. -/
theorem mapping_tables_not_inverse_counterexample :
    tableFromStructType sampleCollab "MyEnt" dupFieldStruct =
      Except.ok dupFieldTable ∧
    mapGet dupFieldTable.colToField "x" = some "X" ∧
    mapGet dupFieldTable.fieldToCol "X" = some "g" ∧
    some "g" ≠ some "x" :=
  ⟨by rfl, rfl, rfl, by decide⟩

/-- C5 amended: for every SchemaEntity returned by the translator, provided
the resulting column names are pairwise distinct (which the external final
validator enforces) and the non-ignored exported field names of the record
are pairwise distinct (which the host language guarantees for legal
declarations), the column-to-field and field-to-column tables are exact
inverses of each other. -/
theorem mapping_tables_inverse (c : Collaborators) (structName : String)
    (s : StructType) (t : Table)
    (h : tableFromStructType c structName s = Except.ok t)
    (hcols : (t.columns.map ColumnDefinition.name).Nodup)
    (hfields : (processedFieldNames c s).Nodup) :
    ∀ cn fn, mapGet t.colToField cn = some fn ↔
      mapGet t.fieldToCol fn = some cn := by
  cases hn : c.normalizeName structName with
  | error e => simp [tableFromStructType, hn] at h
  | ok nm =>
      cases hf : processFields c structName
          { structName := structName, name := nm, key := none,
            columns := [], colToField := [], fieldToCol := [] }
          s.fields with
      | error e => simp [tableFromStructType, hn, hf] at h
      | ok t1 =>
          cases he : c.ensureValid { t1 with key := c.translateKeyName t1 } with
          | some e => simp [tableFromStructType, hn, hf, he] at h
          | none =>
              simp only [tableFromStructType, hn, hf, he,
                Except.ok.injEq] at h
              obtain ⟨L, h1, h2, h3, h4⟩ :=
                processFields_struct c structName s.fields _ t1 hf
              have hct : t.colToField = t1.colToField := by rw [← h]
              have hft : t.fieldToCol = t1.fieldToCol := by rw [← h]
              have hcc : t.columns = t1.columns := by rw [← h]
              have hnd1 : (L.map Prod.fst).Nodup := by
                have hx := hcols
                rw [hcc, h3] at hx
                simpa using hx
              have hnd2 : (L.map Prod.snd).Nodup := by
                rw [h4]; exact hfields
              intro cn fn
              rw [hct, hft, h1, h2]
              exact insPairs_inverse L hnd1 hnd2 cn fn

/-- C5 witness: on a concrete well-formed entity the two tables invert each
other at its single column. -/
theorem mapping_tables_inverse_witness :
    mapGet goodTable.colToField "name" = some "Name" ↔
      mapGet goodTable.fieldToCol "Name" = some "name" :=
  mapping_tables_inverse sampleCollab "MyEnt" goodStruct goodTable (by rfl)
    (by decide) (by decide) "name" "Name"

end Dosa
